import Mathlib

/-!
Verification of the spatial-cluster feature extractor
`process_live_data_and_cluster` from
`Feature Engineering/Clustering/Binary_Clustering.ipynb`.

The pandas DataFrame is embedded row-wise: an input row (`RawRow`) carries the
columns named by the notebook (`latitude`, `longitude`, `acq_date`, `acq_time`,
`satellite`, and the pass-through model features), an output row (`OutRow`)
carries the columns of the returned frame after the notebook drops
`acq_date`/`acq_time` and adds `month`, `week` and `clusters`.  Numeric
columns are modelled by exact rationals.  The external hdbscan library is
modelled as an abstract labelling function (`Clusterer`): the notebook only
consumes `clusterer.fit(df[['latitude','longitude']]).labels_`, a list of
integer labels with -1 as the noise sentinel.
-/

namespace ForestFire

/-- Calendar date, the embedding of the value produced by
`pd.to_datetime(df['acq_date'])` for one row. -/
structure Date where
  year : ℕ
  month : ℕ
  day : ℕ
deriving DecidableEq

/-- Gregorian leap-year test. -/
def isLeap (y : ℕ) : Bool :=
  (y % 4 = 0 && y % 100 ≠ 0) || y % 400 = 0

/-- Lengths of the twelve months of year `y`. -/
def monthLengths (y : ℕ) : List ℕ :=
  [31, if isLeap y then 29 else 28, 31, 30, 31, 30, 31, 31, 30, 31, 30, 31]

/-- Number of days in month `m` (1-based) of year `y`. -/
def daysInMonth (y m : ℕ) : ℕ :=
  (monthLengths y).getD (m - 1) 31

/-- Ordinal day of the year (1-based) of the date `(y, m, d)`. -/
def dayOfYear (y m d : ℕ) : ℕ :=
  ((monthLengths y).take (m - 1)).sum + d

/-- Zeller congruence for the Gregorian calendar:
0 = Saturday, 1 = Sunday, ..., 6 = Friday. -/
def zeller (y m d : ℕ) : ℕ :=
  let mm := if m ≤ 2 then m + 12 else m
  let yy := if m ≤ 2 then y - 1 else y
  let k := yy % 100
  let j := yy / 100
  (d + (13 * (mm + 1)) / 5 + k + k / 4 + j / 4 + 5 * j) % 7

/-- ISO day of week: 1 = Monday, ..., 7 = Sunday. -/
def dayOfWeekISO (y m d : ℕ) : ℕ :=
  (zeller y m d + 5) % 7 + 1

/-- Number of ISO weeks in year `y` (52 or 53). -/
def weeksInYear (y : ℕ) : ℕ :=
  if dayOfWeekISO y 1 1 = 4 ∨ (isLeap y ∧ dayOfWeekISO y 1 1 = 3) then 53 else 52

/-- ISO-8601 week number of the date, the embedding of pandas
`Series.dt.weekofyear` for one row. -/
def weekOfYear (dt : Date) : ℕ :=
  let w := (10 + dayOfYear dt.year dt.month dt.day
      - dayOfWeekISO dt.year dt.month dt.day) / 7
  if w = 0 then weeksInYear (dt.year - 1)
  else if weeksInYear dt.year < w then 1
  else w

/-- Splits a character list at the dashes, the separator of the
`YYYY-MM-DD` date strings fed to `pd.to_datetime`. -/
def splitDash : List Char → List (List Char)
  | [] => [[]]
  | c :: cs =>
    if c = '-' then [] :: splitDash cs
    else
      match splitDash cs with
      | g :: gs => (c :: g) :: gs
      | [] => [[c]]

/-- Reads a decimal numeral, failing on any non-digit character. -/
def digitsToNatAux : List Char → ℕ → Option ℕ
  | [], acc => some acc
  | c :: cs, acc =>
    if c.isDigit then digitsToNatAux cs (acc * 10 + (c.toNat - 48)) else none

/-- Reads a non-empty decimal numeral. -/
def digitsToNat (cs : List Char) : Option ℕ :=
  match cs with
  | [] => none
  | _ => digitsToNatAux cs 0

/-- Embedding of `pd.to_datetime` on one ISO `YYYY-MM-DD` string: `none`
models the exception pandas raises on an unparseable date. -/
def parseDate (s : String) : Option Date :=
  match splitDash s.toList with
  | [ys, ms, ds] =>
    match digitsToNat ys, digitsToNat ms, digitsToNat ds with
    | some y, some m, some d =>
      if 1 ≤ m ∧ m ≤ 12 ∧ 1 ≤ d ∧ d ≤ daysInMonth y m then
        some { year := y, month := m, day := d }
      else none
    | _, _, _ => none
  | _ => none

/-- Round-half-to-even of the fraction `n / d` (with `d` positive) to an
integer, the rounding mode of numpy and pandas `round`: `f` is the floor
and `r` the nonnegative remainder, so the fractional part is `r / d`. -/
def roundHalfEvenInt (n : ℤ) (d : ℕ) : ℤ :=
  let f := n.ediv d
  let r := n.emod d
  if 2 * r < (d : ℤ) then f
  else if (d : ℤ) < 2 * r then f + 1
  else if f.emod 2 = 0 then f else f + 1

/-- Embedding of pandas `Series.round(2)` on one value: round half to even
at two decimal places, computed exactly on the rational `q * 100 =
(q.num * 100) / q.den`. -/
def round2 (q : ℚ) : ℚ :=
  mkRat (roundHalfEvenInt (q.num * 100) q.den) 100

/-- Input row: the columns of the raw table named by the notebook and the
spec (the coordinates, the timestamp fields, the satellite code, and the
pass-through model features). -/
structure RawRow where
  latitude : ℚ
  longitude : ℚ
  acq_date : String
  acq_time : String
  satellite : String
  daynight : String
  brightness : ℚ
  track : ℚ
  scan : ℚ
  bright_t31 : ℚ
  frp : ℚ
  confidence : ℚ
deriving DecidableEq

/-- Column names of the raw table, in the order of `RawRow`. -/
def RawRow.fieldNames : List String :=
  ["latitude", "longitude", "acq_date", "acq_time", "satellite", "daynight",
   "brightness", "track", "scan", "bright_t31", "frp", "confidence"]

/-- Output row: the columns of the frame the notebook returns, after
`df.drop(columns=['acq_date', 'acq_time'])` and the addition of `month`,
`week` and the boolean `clusters` column. -/
structure OutRow where
  latitude : ℚ
  longitude : ℚ
  satellite : String
  daynight : String
  brightness : ℚ
  track : ℚ
  scan : ℚ
  bright_t31 : ℚ
  frp : ℚ
  confidence : ℚ
  month : ℕ
  week : ℕ
  clusters : Bool
deriving DecidableEq

/-- Column names of the output table, in the order of `OutRow`. -/
def OutRow.fieldNames : List String :=
  ["latitude", "longitude", "satellite", "daynight", "brightness", "track",
   "scan", "bright_t31", "frp", "confidence", "month", "week", "clusters"]

/-- Embedding of `df['satellite'].replace(\x7b'T':'Terra', 'A': 'Aqua'\x7d)`
on one value. -/
def mapSatellite (s : String) : String :=
  if s = "T" then "Terra" else if s = "A" then "Aqua" else s

/-- Abstract interface to the external hdbscan library: from
`min_cluster_size`, `min_samples` and the list of (latitude, longitude)
points, the integer labels `clusterer.fit(...).labels_`, with -1 the noise
sentinel. -/
abbrev Clusterer := ℕ → ℕ → List (ℚ × ℚ) → List ℤ

/-- The two-column frame `df[['latitude','longitude']]` handed to the
clusterer: at that point of the notebook both coordinates have already been
rounded to two decimals. -/
def roundedPoints (df : List RawRow) : List (ℚ × ℚ) :=
  df.map fun r => (round2 r.latitude, round2 r.longitude)

/-- The labels the notebook computes with
`hdbscan.HDBSCAN(min_cluster_size=50, min_samples=20, ...)` on the rounded
coordinate columns. -/
def clusterLabels (c : Clusterer) (df : List RawRow) : List ℤ :=
  c 50 20 (roundedPoints df)

/-- Embedding of `pd.to_datetime` over the whole `acq_date` column: the
exception on any bad date is modelled by `none`. -/
def parseDates : List RawRow → Option (List Date)
  | [] => some []
  | r :: rs =>
    match parseDate r.acq_date, parseDates rs with
    | some d, some ds => some (d :: ds)
    | _, _ => none

/-- One output row assembled from an input row, its parsed date, and its
cluster label: coordinates rounded, satellite code mapped, `month` and
`week` derived from the date, timestamp columns gone, and the label
collapsed by `lambda x: False if x == -1 else True`. -/
def mkOutRow (r : RawRow) (d : Date) (l : ℤ) : OutRow :=
  { latitude := round2 r.latitude
    longitude := round2 r.longitude
    satellite := mapSatellite r.satellite
    daynight := r.daynight
    brightness := r.brightness
    track := r.track
    scan := r.scan
    bright_t31 := r.bright_t31
    frp := r.frp
    confidence := r.confidence
    month := d.month
    week := weekOfYear d
    clusters := if l = -1 then false else true }

/-- Positional assembly of the output rows from the input rows, the parsed
date column and the label column. -/
def buildRows : List RawRow → List Date → List ℤ → List OutRow
  | r :: rs, d :: ds, l :: ls => mkOutRow r d l :: buildRows rs ds ls
  | _, _, _ => []

/-- Embedding of `process_live_data_and_cluster`: parse the `acq_date`
column, map the satellite codes, round the coordinates, derive `month` and
`week`, drop the timestamp columns, cluster the rounded coordinates with
the given clusterer, and collapse the labels to the boolean `clusters`
column.  `none` models the pandas exception on an unparseable date or on a
label column whose length does not match the frame. -/
def process_live_data_and_cluster (clusterer : Clusterer)
    (original_df : List RawRow) : Option (List OutRow) :=
  match parseDates original_df with
  | none => none
  | some dates =>
    let labels := clusterLabels clusterer original_df
    if labels.length = original_df.length then
      some (buildRows original_df dates labels)
    else none

/-- A clusterer labelling every point noise: the degenerate but valid
labelling hdbscan produces on a batch too small to contain any cluster. -/
def allNoise : Clusterer := fun _ _ pts => pts.map fun _ => -1

/-- Modelled from the spec: the contract of the external density-clustering
library (hdbscan), whose code is not part of this repository.  The spec
describes the parameter as the minimum cluster size, so every label other
than the noise sentinel must be carried by at least `min_cluster_size`
points, and the library labels each input point exactly once. -/
def ClusterSizeContract (c : Clusterer) : Prop :=
  ∀ mcs ms pts, (c mcs ms pts).length = pts.length ∧
    ∀ l ∈ c mcs ms pts, l ≠ -1 → mcs ≤ (c mcs ms pts).count l

/-- The schema scenario row of the spec, with the model-feature columns the
scenario leaves unspecified filled with inert defaults. -/
def demoRow : RawRow :=
  { latitude := mkRat 34567 1000
    longitude := mkRat (-118123) 1000
    acq_date := "2020-01-05"
    acq_time := "1200"
    satellite := "T"
    daynight := "D"
    brightness := 300
    track := 1
    scan := 1
    bright_t31 := 290
    frp := 10
    confidence := 80 }

/-- The output row the transform produces from `demoRow` when every point
is labelled noise. -/
def demoOut : OutRow :=
  { latitude := mkRat 3457 100
    longitude := mkRat (-11812) 100
    satellite := "Terra"
    daynight := "D"
    brightness := 300
    track := 1
    scan := 1
    bright_t31 := 290
    frp := 10
    confidence := 80
    month := 1
    week := 1
    clusters := false }

/-- The parsed date column has one entry per input row. -/
theorem length_of_parseDates {df : List RawRow} {ds : List Date}
    (h : parseDates df = some ds) : ds.length = df.length := by
  induction df generalizing ds with
  | nil =>
    simp only [parseDates, Option.some.injEq] at h
    subst h; rfl
  | cons r rs ih =>
    simp only [parseDates] at h
    split at h
    next d ds2 hp hq =>
      obtain rfl := (Option.some.injEq _ _).mp h
      simp [ih hq]
    next => exact absurd h (by simp)

/-- Length of the assembled output table. -/
theorem length_buildRows (rs : List RawRow) (ds : List Date) (ls : List ℤ)
    (hd : ds.length = rs.length) (hl : ls.length = rs.length) :
    (buildRows rs ds ls).length = rs.length := by
  induction rs generalizing ds ls with
  | nil =>
    obtain rfl := List.length_eq_zero.mp hd
    obtain rfl := List.length_eq_zero.mp hl
    rfl
  | cons r rs ih =>
    cases ds with
    | nil => exact absurd hd (by simp)
    | cons d ds =>
      cases ls with
      | nil => exact absurd hl (by simp)
      | cons l ls =>
        simpa [buildRows] using ih ds ls (by simpa using hd) (by simpa using hl)

/-- Positional description of the assembled output table. -/
theorem getElem?_buildRows (rs : List RawRow) (ds : List Date) (ls : List ℤ)
    (hd : ds.length = rs.length) (hl : ls.length = rs.length) (i : ℕ) :
    (buildRows rs ds ls)[i]? =
      rs[i]?.bind fun r => ds[i]?.bind fun d => (ls[i]?).map fun l => mkOutRow r d l := by
  induction rs generalizing ds ls i with
  | nil =>
    obtain rfl := List.length_eq_zero.mp hd
    obtain rfl := List.length_eq_zero.mp hl
    simp [buildRows]
  | cons r rs ih =>
    cases ds with
    | nil => exact absurd hd (by simp)
    | cons d ds =>
      cases ls with
      | nil => exact absurd hl (by simp)
      | cons l ls =>
        cases i with
        | zero => simp [buildRows]
        | succ n =>
          simpa [buildRows] using ih ds ls (by simpa using hd) (by simpa using hl) n

/-- Any assembled output row comes from some input row, date and label of
the batch. -/
theorem mem_buildRows {o : OutRow} :
    ∀ (rs : List RawRow) (ds : List Date) (ls : List ℤ),
      o ∈ buildRows rs ds ls → ∃ r d l, l ∈ ls ∧ o = mkOutRow r d l
  | [], ds, ls, h => by cases ds <;> cases ls <;> simp [buildRows] at h
  | r :: rs, [], ls, h => by cases ls <;> simp [buildRows] at h
  | r :: rs, d :: ds, [], h => by simp [buildRows] at h
  | r :: rs, d :: ds, l :: ls, h => by
    rcases List.mem_cons.mp h with h | h
    · exact ⟨r, d, l, List.mem_cons_self _ _, h⟩
    · obtain ⟨r2, d2, l2, hmem, rfl⟩ := mem_buildRows rs ds ls h
      exact ⟨r2, d2, l2, List.mem_cons_of_mem _ hmem, rfl⟩

/-- The clusters column of the assembled output table is the collapsed
label column. -/
theorem map_clusters_buildRows (rs : List RawRow) (ds : List Date) (ls : List ℤ)
    (hd : ds.length = rs.length) (hl : ls.length = rs.length) :
    (buildRows rs ds ls).map (fun o => o.clusters)
      = ls.map fun l => if l = -1 then false else true := by
  induction rs generalizing ds ls with
  | nil =>
    obtain rfl := List.length_eq_zero.mp hd
    obtain rfl := List.length_eq_zero.mp hl
    rfl
  | cons r rs ih =>
    cases ds with
    | nil => exact absurd hd (by simp)
    | cons d ds =>
      cases ls with
      | nil => exact absurd hl (by simp)
      | cons l ls =>
        simpa [buildRows, mkOutRow] using ih ds ls (by simpa using hd) (by simpa using hl)

/-- Characterization of a successful run of the transform. -/
theorem process_eq_some_iff {c : Clusterer} {df : List RawRow} {out : List OutRow} :
    process_live_data_and_cluster c df = some out ↔
      ∃ ds, parseDates df = some ds ∧ (clusterLabels c df).length = df.length ∧
        out = buildRows df ds (clusterLabels c df) := by
  unfold process_live_data_and_cluster
  cases hp : parseDates df with
  | none => simp
  | some ds =>
    show (if (clusterLabels c df).length = df.length then
        some (buildRows df ds (clusterLabels c df)) else none) = some out ↔ _
    by_cases hl : (clusterLabels c df).length = df.length
    · rw [if_pos hl]
      constructor
      · intro h
        obtain rfl := (Option.some.injEq _ _).mp h
        exact ⟨ds, rfl, hl, rfl⟩
      · rintro ⟨ds2, hds2, -, rfl⟩
        obtain rfl := (Option.some.injEq _ _).mp hds2
        rfl
    · rw [if_neg hl]
      constructor
      · intro h
        exact Option.noConfusion h
      · rintro ⟨ds2, -, h2, -⟩
        exact absurd h2 hl

/-- Projection of the output table back to a per-input-row function: any
column of the output whose rows depend only on the matching input row
agrees positionally with the input table. -/
theorem getElem?_map_out {c : Clusterer} {df : List RawRow} {out : List OutRow}
    {ds : List Date} {α : Type} (hp : parseDates df = some ds)
    (hl : (clusterLabels c df).length = df.length)
    (hout : out = buildRows df ds (clusterLabels c df))
    (proj : OutRow → α) (g : RawRow → α)
    (hproj : ∀ r d l, proj (mkOutRow r d l) = g r) (i : ℕ) :
    out[i]?.map proj = df[i]?.map g := by
  subst hout
  rw [getElem?_buildRows df ds _ (length_of_parseDates hp) hl i]
  by_cases hi : i < df.length
  · rw [List.getElem?_eq_getElem hi,
      List.getElem?_eq_getElem (show i < ds.length from (length_of_parseDates hp).symm ▸ hi),
      List.getElem?_eq_getElem (show i < (clusterLabels c df).length from hl.symm ▸ hi)]
    simp [hproj]
  · rw [List.getElem?_eq_none (Nat.le_of_not_lt hi)]
    rfl

/-- A second input table for the coordinate-only dependence claim: the same
coordinates as `demoRow` with every other column different. -/
def demoRow2 : RawRow :=
  { latitude := mkRat 34567 1000
    longitude := mkRat (-118123) 1000
    acq_date := "2019-06-02"
    acq_time := "0230"
    satellite := "A"
    daynight := "N"
    brightness := 310
    track := 2
    scan := 3
    bright_t31 := 280
    frp := 5
    confidence := 60 }

/-- The output row the transform produces from `demoRow2` when every point
is labelled noise. -/
def demoOut2 : OutRow :=
  { latitude := mkRat 3457 100
    longitude := mkRat (-11812) 100
    satellite := "Aqua"
    daynight := "N"
    brightness := 310
    track := 2
    scan := 3
    bright_t31 := 280
    frp := 5
    confidence := 60
    month := 6
    week := 22
    clusters := false }

/-- The all-noise clusterer satisfies the density-clustering contract. -/
theorem allNoise_contract : ClusterSizeContract allNoise := by
  intro mcs ms pts
  refine ⟨by simp [allNoise], fun l hl hne => absurd ?_ hne⟩
  have hl2 : l ∈ pts.map (fun _ => (-1 : ℤ)) := hl
  rcases List.mem_map.mp hl2 with ⟨a, -, ha⟩
  simpa using ha.symm

/-- The collapsed label of an assembled output row. -/
theorem clusters_mkOutRow (r : RawRow) (d : Date) (l : ℤ) :
    (mkOutRow r d l).clusters = decide (l ≠ -1) := by
  by_cases hne : l = -1 <;> simp [mkOutRow, hne]

/-- Rounding a fraction that is exactly an integer returns that integer. -/
theorem roundHalfEvenInt_of_dvd {n : ℤ} {d : ℕ} (hd : 0 < d) (h : (d : ℤ) ∣ n) :
    roundHalfEvenInt n d = n.ediv d := by
  have hr : n.emod (d : ℤ) = 0 := Int.emod_eq_zero_of_dvd h
  have hpos : (0 : ℤ) < (d : ℤ) := by exact_mod_cast hd
  simp only [roundHalfEvenInt, hr]
  rw [if_pos (by simpa using hpos)]

/-- The denominator of a rounded coordinate divides 100. -/
theorem den_round2_dvd (q : ℚ) : (round2 q).den ∣ 100 := by
  have h := Rat.den_dvd (roundHalfEvenInt (q.num * 100) q.den) ((100 : ℕ) : ℤ)
  rw [Rat.divInt_ofNat] at h
  rw [round2]
  exact_mod_cast h

/-- A rational already on the two-decimal grid is fixed by the rounding. -/
theorem round2_eq_self_of_den_dvd {q : ℚ} (hq : q.den ∣ 100) : round2 q = q := by
  have hdvd : (q.den : ℤ) ∣ q.num * 100 := by
    have h2 : (q.den : ℤ) ∣ ((100 : ℕ) : ℤ) := Int.natCast_dvd_natCast.mpr hq
    exact_mod_cast h2.mul_left q.num
  rw [round2, roundHalfEvenInt_of_dvd q.pos hdvd]
  conv_rhs => rw [← Rat.mkRat_self q]
  rw [Rat.mkRat_eq_iff (by norm_num) q.den_nz]
  have hm : (q.num * 100).ediv (q.den : ℤ) * (q.den : ℤ) = q.num * 100 :=
    Int.ediv_mul_cancel hdvd
  exact_mod_cast hm

/-- C8: the coordinate rounding to 2 decimal places is idempotent: for
every latitude or longitude value, rounding the already-rounded value
yields the same result, so applying the rounding step of the transform
twice equals applying it once. -/
theorem round2_idempotent (q : ℚ) : round2 (round2 q) = round2 q :=
  round2_eq_self_of_den_dvd (den_round2_dvd q)

/-- C1: on every successful run of the transform, the clusters column is
exactly the pointwise test (label of the clustering step) != -1, so
cluster membership is boolean-valued and defined for every row of the
output (which has one row per input row). -/
theorem cluster_membership_eq_label_ne_noise (c : Clusterer) (df : List RawRow)
    (out : List OutRow) (h : process_live_data_and_cluster c df = some out) :
    (∀ i : ℕ, (out[i]?).map (fun o => o.clusters)
        = ((clusterLabels c df)[i]?).map (fun l => decide (l ≠ -1)))
      ∧ out.length = df.length := by
  obtain ⟨ds, hp, hl, rfl⟩ := process_eq_some_iff.mp h
  have hd := length_of_parseDates hp
  refine ⟨fun i => ?_, length_buildRows df ds _ hd hl⟩
  rw [getElem?_buildRows df ds _ hd hl i]
  by_cases hi : i < df.length
  · rw [List.getElem?_eq_getElem hi,
      List.getElem?_eq_getElem (show i < ds.length from hd.symm ▸ hi),
      List.getElem?_eq_getElem (show i < (clusterLabels c df).length from hl.symm ▸ hi)]
    simp [clusters_mkOutRow]
  · rw [List.getElem?_eq_none (Nat.le_of_not_lt hi),
      List.getElem?_eq_none (show (clusterLabels c df).length ≤ i from hl ▸ Nat.le_of_not_lt hi)]
    rfl

/-- C1 witness: the property evaluated on a concrete one-row table. -/
theorem cluster_membership_eq_label_ne_noise_witness :
    process_live_data_and_cluster allNoise [demoRow] = some [demoOut]
      ∧ ([demoOut][0]?).map (fun o => o.clusters)
          = ((clusterLabels allNoise [demoRow])[0]?).map (fun l => decide (l ≠ -1)) :=
  ⟨by decide,
    (cluster_membership_eq_label_ne_noise allNoise [demoRow] [demoOut] (by decide)).1 0⟩

/-- C2: under the density-clustering size contract, a batch of fewer than
50 rows comes back with cluster membership false on every row, as a normal
`some` result and not an error. -/
theorem small_batch_all_noise (c : Clusterer) (hc : ClusterSizeContract c)
    (df : List RawRow) (out : List OutRow) (hsmall : df.length < 50)
    (h : process_live_data_and_cluster c df = some out) :
    ∀ o ∈ out, o.clusters = false := by
  obtain ⟨ds, hp, hl, rfl⟩ := process_eq_some_iff.mp h
  intro o ho
  obtain ⟨r, d, l, hls, rfl⟩ := mem_buildRows df ds _ ho
  rw [clusters_mkOutRow]
  by_cases hne : l = -1
  · simp [hne]
  · exfalso
    obtain ⟨-, hcount⟩ := hc 50 20 (roundedPoints df)
    have h50 : 50 ≤ (clusterLabels c df).count l := hcount l hls hne
    have hle : (clusterLabels c df).count l ≤ (clusterLabels c df).length :=
      List.count_le_length l _
    omega

/-- C2 witness: the degenerate labelling on a concrete one-row table. -/
theorem small_batch_all_noise_witness :
    ClusterSizeContract allNoise ∧ [demoRow].length < 50
      ∧ process_live_data_and_cluster allNoise [demoRow] = some [demoOut]
      ∧ demoOut.clusters = false :=
  ⟨allNoise_contract, by decide, by decide,
    small_batch_all_noise allNoise allNoise_contract [demoRow] [demoOut]
      (by decide) (by decide) demoOut (by decide)⟩

/-- C3: the clusters column depends only on the latitude and longitude
columns of the batch at hand: two input tables that agree row-for-row on
the coordinates, whatever their other columns contain, receive identical
cluster-membership assignments; the transform being a function of the
clusterer and the current batch alone, no other batch can influence it. -/
theorem clusters_from_coords_only (c : Clusterer) (df1 df2 : List RawRow)
    (out1 out2 : List OutRow)
    (hco : (df1.map fun r => (r.latitude, r.longitude))
        = (df2.map fun r => (r.latitude, r.longitude)))
    (h1 : process_live_data_and_cluster c df1 = some out1)
    (h2 : process_live_data_and_cluster c df2 = some out2) :
    out1.map (fun o => o.clusters) = out2.map (fun o => o.clusters) := by
  obtain ⟨ds1, hp1, hl1, rfl⟩ := process_eq_some_iff.mp h1
  obtain ⟨ds2, hp2, hl2, rfl⟩ := process_eq_some_iff.mp h2
  have hpts : roundedPoints df1 = roundedPoints df2 := by
    have e1 : roundedPoints df1 = (df1.map fun r => (r.latitude, r.longitude)).map
        (fun p => (round2 p.1, round2 p.2)) := by
      rw [List.map_map]; rfl
    have e2 : roundedPoints df2 = (df2.map fun r => (r.latitude, r.longitude)).map
        (fun p => (round2 p.1, round2 p.2)) := by
      rw [List.map_map]; rfl
    rw [e1, e2, hco]
  have hlabels : clusterLabels c df1 = clusterLabels c df2 := by
    rw [clusterLabels, clusterLabels, hpts]
  rw [map_clusters_buildRows df1 ds1 _ (length_of_parseDates hp1) hl1,
    map_clusters_buildRows df2 ds2 _ (length_of_parseDates hp2) hl2, hlabels]

/-- C3 witness: two concrete one-row tables agreeing on the coordinates
only. -/
theorem clusters_from_coords_only_witness :
    ([demoRow].map fun r => (r.latitude, r.longitude))
        = ([demoRow2].map fun r => (r.latitude, r.longitude))
      ∧ process_live_data_and_cluster allNoise [demoRow] = some [demoOut]
      ∧ process_live_data_and_cluster allNoise [demoRow2] = some [demoOut2]
      ∧ [demoOut].map (fun o => o.clusters) = [demoOut2].map (fun o => o.clusters) :=
  ⟨by decide, by decide, by decide,
    clusters_from_coords_only allNoise [demoRow] [demoRow2] [demoOut] [demoOut2]
      (by decide) (by decide) (by decide)⟩

/-- C4: the transform is deterministic: with the clusterer and its
parameters fixed, two runs on the same input table produce the same
result. -/
theorem process_deterministic (c : Clusterer) (df : List RawRow)
    (o1 o2 : Option (List OutRow))
    (h1 : process_live_data_and_cluster c df = o1)
    (h2 : process_live_data_and_cluster c df = o2) : o1 = o2 :=
  h1.symm.trans h2

/-- C4 witness: two runs on a concrete table. -/
theorem process_deterministic_witness :
    process_live_data_and_cluster allNoise [demoRow] = some [demoOut]
      ∧ (some [demoOut] : Option (List OutRow)) = some [demoOut] :=
  ⟨by decide,
    process_deterministic allNoise [demoRow] (some [demoOut]) (some [demoOut])
      (by decide) (by decide)⟩

/-- C5: the satellite column of the output is the input column passed
through the fixed lookup, which maps T to Terra, A to Aqua, and leaves
every other code unchanged (not an error). -/
theorem satellite_code_mapping (c : Clusterer) (df : List RawRow)
    (out : List OutRow) (h : process_live_data_and_cluster c df = some out) :
    (∀ i : ℕ, (out[i]?).map (fun o => o.satellite)
        = (df[i]?).map (fun r => mapSatellite r.satellite))
      ∧ mapSatellite "T" = "Terra" ∧ mapSatellite "A" = "Aqua"
      ∧ ∀ s, s ≠ "T" → s ≠ "A" → mapSatellite s = s := by
  obtain ⟨ds, hp, hl, hout⟩ := process_eq_some_iff.mp h
  refine ⟨getElem?_map_out hp hl hout _ _ (fun r d l => rfl), by decide, by decide, ?_⟩
  intro s h1 h2
  simp [mapSatellite, h1, h2]

/-- C5 witness: the mapping evaluated on a concrete table and on the
unmapped code Q. -/
theorem satellite_code_mapping_witness :
    process_live_data_and_cluster allNoise [demoRow] = some [demoOut]
      ∧ ([demoOut][0]?).map (fun o => o.satellite)
          = ([demoRow][0]?).map (fun r => mapSatellite r.satellite)
      ∧ mapSatellite "T" = "Terra" ∧ mapSatellite "A" = "Aqua"
      ∧ mapSatellite "Q" = "Q" := by
  have h := satellite_code_mapping allNoise [demoRow] [demoOut] (by decide)
  exact ⟨by decide, h.1 0, h.2.1, h.2.2.1, h.2.2.2 "Q" (by decide) (by decide)⟩

/-- C6: the schema scenario: the spec's input row yields an output row
with satellite Terra, month 1 and ISO week 1, and the output schema
carries no acq_date or acq_time column. -/
theorem schema_scenario (c : Clusterer) (out : List OutRow)
    (h : process_live_data_and_cluster c [demoRow] = some out) :
    out.map (fun o => (o.satellite, o.month, o.week)) = [("Terra", 1, 1)]
      ∧ "acq_date" ∉ OutRow.fieldNames ∧ "acq_time" ∉ OutRow.fieldNames := by
  obtain ⟨ds, hp, hl, rfl⟩ := process_eq_some_iff.mp h
  have hpd : parseDates [demoRow] = some [{ year := 2020, month := 1, day := 5 }] := by
    decide
  rw [hpd] at hp
  obtain rfl := (Option.some.injEq _ _).mp hp
  obtain ⟨l, hls⟩ := List.length_eq_one.mp (by simpa using hl)
  rw [hls]
  refine ⟨?_, by decide, by decide⟩
  simp only [buildRows, List.map_cons, List.map_nil, mkOutRow]
  decide

/-- C6 witness: the scenario evaluated with a concrete clusterer. -/
theorem schema_scenario_witness :
    process_live_data_and_cluster allNoise [demoRow] = some [demoOut]
      ∧ ([demoOut].map (fun o => (o.satellite, o.month, o.week)) = [("Terra", 1, 1)]
          ∧ "acq_date" ∉ OutRow.fieldNames ∧ "acq_time" ∉ OutRow.fieldNames) :=
  ⟨by decide, schema_scenario allNoise [demoOut] (by decide)⟩

/-- C9: the pass-through feature columns (daynight, brightness, track,
scan, bright_t31, frp, confidence) appear in the output with values
identical, row-for-row, to the input; the transform itself is a pure
function of the input table (the notebook works on `original_df.copy()`),
so the table passed in is never modified. -/
theorem passthrough_columns (c : Clusterer) (df : List RawRow)
    (out : List OutRow) (h : process_live_data_and_cluster c df = some out) :
    ∀ i : ℕ, (out[i]?).map
        (fun o => (o.daynight, o.brightness, o.track, o.scan, o.bright_t31, o.frp,
          o.confidence))
      = (df[i]?).map
        (fun r => (r.daynight, r.brightness, r.track, r.scan, r.bright_t31, r.frp,
          r.confidence)) := by
  obtain ⟨ds, hp, hl, hout⟩ := process_eq_some_iff.mp h
  exact getElem?_map_out hp hl hout _ _ (fun r d l => rfl)

/-- C9 witness: the pass-through columns on a concrete table. -/
theorem passthrough_columns_witness :
    process_live_data_and_cluster allNoise [demoRow] = some [demoOut]
      ∧ ([demoOut][0]?).map
          (fun o => (o.daynight, o.brightness, o.track, o.scan, o.bright_t31, o.frp,
            o.confidence))
        = ([demoRow][0]?).map
          (fun r => (r.daynight, r.brightness, r.track, r.scan, r.bright_t31, r.frp,
            r.confidence)) :=
  ⟨by decide, passthrough_columns allNoise [demoRow] [demoOut] (by decide) 0⟩

/-- Positional description of the parsed date column: the date at position
i comes from the input row at position i. -/
theorem getElem?_parseDates {df : List RawRow} {ds : List Date}
    (h : parseDates df = some ds) (i : ℕ) :
    ds[i]? = (df[i]?).bind fun r => parseDate r.acq_date := by
  induction df generalizing ds i with
  | nil =>
    simp only [parseDates, Option.some.injEq] at h
    subst h
    rfl
  | cons r rs ih =>
    simp only [parseDates] at h
    split at h
    next d ds2 hp hq =>
      obtain rfl := (Option.some.injEq _ _).mp h
      cases i with
      | zero => simp [hp]
      | succ n => simpa using ih hq n
    next => exact absurd h (by simp)

/-- C10: the output table has exactly one row per input row, in the same
order with the same row identities: the row at output position i is
assembled from the input row at position i (with its own date and its own
label), so the transform only changes columns and never inserts, drops,
deduplicates or reorders rows. -/
theorem row_count_and_order_preserved (c : Clusterer) (df : List RawRow)
    (out : List OutRow) (h : process_live_data_and_cluster c df = some out) :
    out.length = df.length ∧
      ∀ i : ℕ, out[i]? = (df[i]?).bind fun r => (parseDate r.acq_date).bind fun d =>
        ((clusterLabels c df)[i]?).map fun l => mkOutRow r d l := by
  obtain ⟨ds, hp, hl, rfl⟩ := process_eq_some_iff.mp h
  have hd := length_of_parseDates hp
  refine ⟨length_buildRows df ds _ hd hl, fun i => ?_⟩
  rw [getElem?_buildRows df ds _ hd hl i]
  cases hdf : df[i]? with
  | none => rfl
  | some r =>
    have hdi := getElem?_parseDates hp i
    rw [hdf, Option.some_bind] at hdi
    rw [Option.some_bind, Option.some_bind, hdi]

/-- C10 witness: row count and positional identity on a concrete table. -/
theorem row_count_and_order_preserved_witness :
    process_live_data_and_cluster allNoise [demoRow] = some [demoOut]
      ∧ [demoOut].length = [demoRow].length
      ∧ [demoOut][0]? = (([demoRow][0]?).bind fun r => (parseDate r.acq_date).bind fun d =>
          ((clusterLabels allNoise [demoRow])[0]?).map fun l => mkOutRow r d l) := by
  have h := row_count_and_order_preserved allNoise [demoRow] [demoOut] (by decide)
  exact ⟨by decide, h.1, h.2 0⟩

end ForestFire
